import Mathlib

/-!
Shallow embedding of the `voting_escrow` contract
(`contracts/voting_escrow/src/contract.rs`) of the astroport-governance
repository, together with proofs about its checkpoint / decay engine.

The contract's helper module (`utils.rs`: `get_period`, `calc_coefficient`,
`calc_voting_power`, `time_limits_check`, the slope-schedule helpers) and its
storage module (`state.rs`) are not part of the provided sources; those
definitions are modelled from the specification and are marked
`Modelled from the spec:` in their doc comments.  Everything else is a direct
translation of `contract.rs`.

Machine integers (`Uint128`, `u64`) are modelled as `ℕ` (subtraction is the
saturating subtraction the code uses, or is guarded by the same checks the
code performs).  The fixed-point `Decimal` type is modelled as an exact
fraction with integer numerator and natural denominator; the specification
describes slopes as exact non-negative rationals with one consistently
applied truncating rounding rule wherever an integer is produced.
-/

/-- Account identifiers (the model replaces bech32 addresses by naturals). -/
abbrev Account := ℕ

/-- Modelled from the spec: the period clock constant `WEEK` (seconds per
period), from `astroport_governance::utils` which is not in the sources. -/
def WEEK : ℕ := 604800

/-- Modelled from the spec: `MAX_LOCK_PERIODS = 104` (two years of weeks);
`coefficient(dt) = dt / MAX_LOCK_PERIODS`. -/
def MAX_LOCK_PERIODS : ℕ := 104

/-- Modelled from the spec: the minimum lock duration is one period. -/
def MIN_LOCK_PERIODS : ℕ := 1

/-- Modelled from the spec: `MAX_LOCK_TIME` in seconds (two years of weeks). -/
def MAX_LOCK_TIME : ℕ := MAX_LOCK_PERIODS * WEEK

/-- Modelled from the spec: `get_period(time) = floor(time / WEEK)`
(`astroport_governance::utils::get_period`, not in the sources; the sibling
`escrow_fee_distributor/src/utils.rs` contains the same definition). -/
def get_period (time : ℕ) : ℕ := time / WEEK

/-- Modelled from the spec: the cosmwasm `Decimal` slope values, modelled as
an exact fraction `num / den`.  The spec describes `slope` as a non-negative
exact rational; the numerator is an integer so that the checked subtractions
of the code are total in the model. -/
structure Decimal where
  num : ℤ
  den : ℕ
deriving DecidableEq

/-- The zero `Decimal`. -/
def Decimal.zero : Decimal := { num := 0, den := 1 }

/-- `Decimal::from_ratio(a, b)`, exact. -/
def Decimal.fromRatio (a b : ℕ) : Decimal := { num := (a : ℤ), den := b }

/-- Semantic zero test (`Decimal::is_zero`). -/
def Decimal.isZero (d : Decimal) : Bool := d.num == 0

/-- Exact addition of fractions. -/
def Decimal.add (x y : Decimal) : Decimal :=
  { num := x.num * (y.den : ℤ) + y.num * (x.den : ℤ), den := x.den * y.den }

/-- Exact subtraction of fractions. -/
def Decimal.sub (x y : Decimal) : Decimal :=
  { num := x.num * (y.den : ℤ) - y.num * (x.den : ℤ), den := x.den * y.den }

/-- The rational value denoted by a `Decimal`. -/
def Decimal.toRat (d : Decimal) : ℚ := (d.num : ℚ) / (d.den : ℚ)

/-- A lock: `{amount, start period, end period}` (`state.rs::Lock`). -/
structure Lock where
  amount : ℕ
  start : ℕ
  end_ : ℕ
deriving DecidableEq

/-- A checkpoint: `{power, start, end, slope}` (`state.rs::Point`). -/
structure Point where
  power : ℕ
  start : ℕ
  end_ : ℕ
  slope : Decimal
deriving DecidableEq

/-- Answer of the `LockInfo` query (`LockInfoResponse`). -/
structure LockInfoResponse where
  amount : ℕ
  coefficient : Decimal
  start : ℕ
  end_ : ℕ
deriving DecidableEq

/-- The contract errors of `error.rs` that the modelled entry points raise
(`Std` stands for the generic `StdError` results). -/
inductive ContractError where
  | Std
  | Unauthorized
  | LockAlreadyExists
  | LockDoesntExist
  | LockTimeLimitsError
  | LockHasNotExpired
  | LockExpired
  | AddressBlacklisted (addr : Account)
deriving DecidableEq

/-- The persistent state of the contract: the `LOCKED` map, the `HISTORY`
map split into the per-user part and the part keyed by the contract's own
address (the global total), the `SLOPE_CHANGES` map, the `LAST_SLOPE_CHANGE`
cursor (absent is read as `0` by the code, so it is a plain natural here),
the `BLACKLIST` vector and the owner / guardian configuration. -/
structure ContractState where
  locked : Account → Option Lock
  userHistory : Account → List (ℕ × Point)
  totalHistory : List (ℕ × Point)
  slopeChanges : ℕ → Decimal
  lastSlopeChange : ℕ
  blacklist : List Account
  owner : Account
  guardian : Account

/-- `Map::save` on a history keyed by period: overwrite the entry of the key. -/
def save_entry (l : List (ℕ × Point)) (k : ℕ) (v : Point) : List (ℕ × Point) :=
  (k, v) :: l.filter (fun e => e.1 != k)

/-- Modelled from the spec: `fetch_last_checkpoint` (`utils.rs`, not in the
sources): the entry with the largest period key that is at most `p`
(predecessor lookup over the `HISTORY` range). -/
def fetch_last_checkpoint (l : List (ℕ × Point)) (p : ℕ) : Option (ℕ × Point) :=
  match l with
  | [] => none
  | e :: rest =>
      match fetch_last_checkpoint rest p with
      | none => if e.1 ≤ p then some e else none
      | some b => if e.1 ≤ p ∧ b.1 < e.1 then some e else some b

/-- The numerator of the decay line `power - slope * (p - start)` of a point,
over the slope's denominator. -/
def line_num (pt : Point) (p : ℕ) : ℤ :=
  (pt.power : ℤ) * (pt.slope.den : ℤ) - pt.slope.num * ((p - pt.start : ℕ) : ℤ)

/-- Modelled from the spec: `calc_voting_power` (`utils.rs`, not in the
sources): `value(p) = max(0, power - slope * (p - start))`, truncated to an
integer by the spec's uniform truncating rounding rule. -/
def calc_voting_power (pt : Point) (period : ℕ) : ℕ :=
  (line_num pt period / (pt.slope.den : ℤ)).toNat

/-- Modelled from the spec: `calc_coefficient(dt) = dt / MAX_LOCK_PERIODS`
(`utils.rs`, not in the sources). -/
def calc_coefficient (dt : ℕ) : Decimal := Decimal.fromRatio dt MAX_LOCK_PERIODS

/-- `Uint128 * Decimal` (`amount * calc_coefficient(dt)` in the code):
truncating multiplication of an integer amount by a coefficient. -/
def mul_uint_dec (a : ℕ) (d : Decimal) : ℕ := (((a : ℤ) * d.num) / (d.den : ℤ)).toNat

/-- Modelled from the spec: `time_limits_check` (`utils.rs`, not in the
sources): the lock time must lie within `[WEEK, MAX_LOCK_TIME]`; the
boundary values are legal (spec section 8, duration bounds). -/
def time_limits_check (time : ℕ) : Except ContractError Unit :=
  if WEEK ≤ time ∧ time ≤ MAX_LOCK_TIME then Except.ok () else Except.error ContractError.LockTimeLimitsError

/-- Modelled from the spec: `blacklist_check` (`utils.rs`, not in the
sources): fail when the address is blacklisted. -/
def blacklist_check (s : ContractState) (user : Account) : Except ContractError Unit :=
  if user ∈ s.blacklist then Except.error (ContractError.AddressBlacklisted user) else Except.ok ()

/-- Modelled from the spec: `schedule_slope_change` (`utils.rs`, not in the
sources): add `slope` to the scheduled slope change of period `period`. -/
def schedule_slope_change (s : ContractState) (slope : Decimal) (period : ℕ) : ContractState :=
  { s with slopeChanges := fun q => if q = period then (s.slopeChanges q).add slope else s.slopeChanges q }

/-- Modelled from the spec: `cancel_scheduled_slope` (`utils.rs`, not in the
sources): subtract `slope` from the scheduled slope change of `period`. -/
def cancel_scheduled_slope (s : ContractState) (slope : Decimal) (period : ℕ) : ContractState :=
  { s with slopeChanges := fun q => if q = period then (s.slopeChanges q).sub slope else s.slopeChanges q }

/-- Store a lock in `LOCKED`. -/
def ContractState.saveLock (s : ContractState) (a : Account) (l : Lock) : ContractState :=
  { s with locked := fun x => if x = a then some l else s.locked x }

/-- Remove a lock from `LOCKED`. -/
def ContractState.removeLock (s : ContractState) (a : Account) : ContractState :=
  { s with locked := fun x => if x = a then none else s.locked x }

/-- Store a user checkpoint in `HISTORY`. -/
def ContractState.saveUserPoint (s : ContractState) (a : Account) (k : ℕ) (pt : Point) : ContractState :=
  { s with userHistory := fun x => if x = a then save_entry (s.userHistory x) k pt else s.userHistory x }

/-- The catch-up loop of `checkpoint_total` (`contract.rs` lines 227-246):
walk the periods in `(fromExcl, fromExcl + n]` in increasing order, and at
every period with a nonzero scheduled slope change recalculate the point and
persist it; returns the updated history and the caught-up point. -/
def catchup_loop (hist : List (ℕ × Point)) (sched : ℕ → Decimal) (pt : Point)
    (fromExcl n : ℕ) : List (ℕ × Point) × Point :=
  match n with
  | 0 => (hist, pt)
  | m + 1 =>
      let q := fromExcl + 1
      if (sched q).isZero then catchup_loop hist sched pt q m
      else
        let pt2 : Point :=
          { power := calc_voting_power pt q, start := q, slope := pt.slope.sub (sched q), end_ := pt.end_ }
        catchup_loop (save_entry hist q pt2) sched pt2 q m

/-- The same walk without persisting, as replayed by the read-only query
`get_total_voting_power` (`contract.rs` lines 760-769). -/
def replay_slope_changes (sched : ℕ → Decimal) (pt : Point) (fromExcl n : ℕ) : Point :=
  match n with
  | 0 => pt
  | m + 1 =>
      let q := fromExcl + 1
      if (sched q).isZero then replay_slope_changes sched pt q m
      else
        replay_slope_changes sched
          ({ power := calc_voting_power pt q, start := q, slope := pt.slope.sub (sched q), end_ := pt.end_ })
          q m

/-- `checkpoint_total` (`contract.rs` lines 208-266): catch the global point
up over the scheduled slope changes since the cursor, then apply the caller's
power and slope deltas and store the new global point at the current period. -/
def checkpoint_total (s : ContractState) (now : ℕ)
    (add_voting_power reduce_power : Option ℕ) (old_slope new_slope : Decimal) : ContractState :=
  let cur_period := get_period now
  let add := add_voting_power.getD 0
  match fetch_last_checkpoint s.totalHistory cur_period with
  | none =>
      let new_point : Point := { power := add, slope := new_slope, start := cur_period, end_ := 0 }
      { s with totalHistory := save_entry s.totalHistory cur_period new_point }
  | some kpt =>
      let point := kpt.2
      if s.lastSlopeChange < cur_period then
        let r := catchup_loop s.totalHistory s.slopeChanges point s.lastSlopeChange
          (cur_period - s.lastSlopeChange)
        let new_power := (calc_voting_power r.2 cur_period + add) - reduce_power.getD 0
        let new_point : Point :=
          { power := new_power, slope := (r.2.slope.sub old_slope).add new_slope,
            start := cur_period, end_ := r.2.end_ }
        { s with totalHistory := save_entry r.1 cur_period new_point, lastSlopeChange := cur_period }
      else
        let new_power := (calc_voting_power point cur_period + add) - reduce_power.getD 0
        let new_point : Point :=
          { power := new_power, slope := (point.slope.sub old_slope).add new_slope,
            start := cur_period, end_ := point.end_ }
        { s with totalHistory := save_entry s.totalHistory cur_period new_point }

/-- The common tail of the `Some`-branch of `checkpoint` (`contract.rs`
lines 316-354): cancel the previously scheduled slope change, build the new
point, schedule its slope change, store it and propagate to the total. -/
def checkpoint_finish (s : ContractState) (now : ℕ) (addr : Account) (point : Point)
    (current_power add_voting_power : ℕ) (new_slope : Decimal) (end_ : ℕ) :
    Except ContractError ContractState :=
  let cur_period := get_period now
  let s1 := cancel_scheduled_slope s point.slope point.end_
  let old_slope := point.slope
  let new_point : Point :=
    { power := current_power + add_voting_power, slope := new_slope, start := cur_period, end_ := end_ }
  let s2 := schedule_slope_change s1 new_point.slope new_point.end_
  let s3 := s2.saveUserPoint addr cur_period new_point
  Except.ok (checkpoint_total s3 now (some add_voting_power) none old_slope new_point.slope)

/-- `checkpoint` (`contract.rs` lines 278-355): recompute the user's point
for the current period from `add_amount` and `new_end` and propagate the
deltas to the total.  The pure-extension branch reloads the lock, rewrites
its `start` to the current period and recomputes the whole power fresh. -/
def checkpoint (s : ContractState) (now : ℕ) (addr : Account)
    (add_amount : Option ℕ) (new_end : Option ℕ) : Except ContractError ContractState :=
  let cur_period := get_period now
  let add := add_amount.getD 0
  match fetch_last_checkpoint (s.userHistory addr) cur_period with
  | some kpt =>
      let point := kpt.2
      let end_ := new_end.getD point.end_
      let dt := end_ - cur_period
      let current_power := calc_voting_power point cur_period
      if dt ≠ 0 then
        if point.end_ < end_ ∧ add = 0 then
          match s.locked addr with
          | none => Except.error ContractError.Std
          | some lock =>
              let new_voting_power := mul_uint_dec lock.amount (calc_coefficient dt)
              let add_voting_power := new_voting_power - current_power
              let s1 := s.saveLock addr ({ lock with start := cur_period })
              let new_slope := Decimal.fromRatio new_voting_power dt
              checkpoint_finish s1 now addr point current_power add_voting_power new_slope end_
        else
          let add_voting_power := mul_uint_dec add (calc_coefficient dt)
          let new_slope := Decimal.fromRatio (current_power + add_voting_power) dt
          checkpoint_finish s now addr point current_power add_voting_power new_slope end_
      else
        checkpoint_finish s now addr point current_power 0 Decimal.zero end_
  | none =>
      match new_end with
      | none => Except.error ContractError.Std
      | some end_ =>
          let dt := end_ - cur_period
          let add_voting_power := mul_uint_dec add (calc_coefficient dt)
          let slope := Decimal.fromRatio add_voting_power dt
          let new_point : Point :=
            { power := add_voting_power, slope := slope, start := cur_period, end_ := end_ }
          let s1 := schedule_slope_change s new_point.slope new_point.end_
          let s2 := s1.saveUserPoint addr cur_period new_point
          Except.ok (checkpoint_total s2 now (some add_voting_power) none Decimal.zero new_point.slope)

/-- `instantiate` (`contract.rs` lines 54-122), restricted to the ledger
state: a zero global point at the current period, an empty blacklist. -/
def instantiate (now : ℕ) (owner guardian : Account) : ContractState :=
  { locked := fun _ => none
    userHistory := fun _ => []
    totalHistory := [(get_period now, { power := 0, start := get_period now, end_ := 0, slope := Decimal.zero })]
    slopeChanges := fun _ => Decimal.zero
    lastSlopeChange := 0
    blacklist := []
    owner := owner
    guardian := guardian }

/-- `create_lock` (`contract.rs` lines 389-415). -/
def create_lock (s : ContractState) (now : ℕ) (user : Account) (amount : ℕ) (time : ℕ) :
    Except ContractError ContractState := do
  let _ ← time_limits_check time
  let block_period := get_period now
  let end_ := block_period + get_period time
  match s.locked user with
  | some _ => Except.error ContractError.LockAlreadyExists
  | none =>
      let s1 := s.saveLock user ({ amount := amount, start := block_period, end_ := end_ })
      checkpoint s1 now user (some amount) (some end_)

/-- The `Cw20HookMsg::CreateLock` path of `receive_cw20` (`contract.rs`
lines 361-380): the sender must not be blacklisted. -/
def execute_create_lock (s : ContractState) (now : ℕ) (sender : Account) (amount : ℕ) (time : ℕ) :
    Except ContractError ContractState := do
  let _ ← blacklist_check s sender
  create_lock s now sender amount time

/-- `deposit_for` (`contract.rs` lines 423-444). -/
def deposit_for (s : ContractState) (now : ℕ) (amount : ℕ) (user : Account) :
    Except ContractError ContractState :=
  match s.locked user with
  | none => Except.error ContractError.LockDoesntExist
  | some lock =>
      if lock.end_ ≤ get_period now then Except.error ContractError.LockExpired
      else
        let s1 := s.saveLock user ({ lock with amount := lock.amount + amount })
        checkpoint s1 now user (some amount) none

/-- `withdraw` (`contract.rs` lines 450-487): on success returns the new
state together with the amount of the produced transfer effect. -/
def withdraw (s : ContractState) (now : ℕ) (sender : Account) :
    Except ContractError (ContractState × ℕ) :=
  match s.locked sender with
  | none => Except.error ContractError.LockDoesntExist
  | some lock =>
      let cur_period := get_period now
      if cur_period < lock.end_ then Except.error ContractError.LockHasNotExpired
      else
        let s1 := s.removeLock sender
        let s2 := s1.saveUserPoint sender cur_period
          ({ power := 0, start := cur_period, end_ := cur_period, slope := Decimal.zero })
        Except.ok (s2, lock.amount)

/-- `extend_lock_time` (`contract.rs` lines 499-526). -/
def extend_lock_time (s : ContractState) (now : ℕ) (user : Account) (time : ℕ) :
    Except ContractError ContractState := do
  let _ ← blacklist_check s user
  match s.locked user with
  | none => Except.error ContractError.LockDoesntExist
  | some lock => do
      let _ ← time_limits_check time
      if lock.end_ ≤ get_period now then Except.error ContractError.LockExpired
      else do
        let _ ← time_limits_check (lock.end_ * WEEK + time - now)
        let lock2 : Lock := { lock with end_ := lock.end_ + get_period time }
        let s1 := s.saveLock user lock2
        checkpoint s1 now user none (some lock2.end_)

/-- The append loop of `update_blacklist` (`contract.rs` lines 565-591):
write a zero point for every appended account that has a checkpoint, and
accumulate the nonzero current powers and slopes to remove from the total. -/
def blacklist_append_loop (cur : ℕ) (addrs : List Account) (s : ContractState)
    (reduce : ℕ) (old_slopes : Decimal) : ContractState × ℕ × Decimal :=
  match addrs with
  | [] => (s, reduce, old_slopes)
  | addr :: rest =>
      match fetch_last_checkpoint (s.userHistory addr) cur with
      | none => blacklist_append_loop cur rest s reduce old_slopes
      | some kpt =>
          let point := kpt.2
          let s1 := s.saveUserPoint addr cur
            ({ power := 0, slope := Decimal.zero, start := cur, end_ := cur })
          let cur_power := calc_voting_power point cur
          if cur_power = 0 then blacklist_append_loop cur rest s1 reduce old_slopes
          else
            let s2 := cancel_scheduled_slope s1 point.slope point.end_
            blacklist_append_loop cur rest s2 (reduce + cur_power) (old_slopes.add point.slope)

/-- The removal loop of `update_blacklist` (`contract.rs` lines 605-616):
re-run the checkpoint from the full lock for every removed account. -/
def blacklist_remove_loop (now : ℕ) (addrs : List Account) (s : ContractState) :
    Except ContractError ContractState :=
  match addrs with
  | [] => Except.ok s
  | addr :: rest =>
      match s.locked addr with
      | none => blacklist_remove_loop now rest s
      | some lock => do
          let s1 ← checkpoint s now addr (some lock.amount) (some lock.end_)
          blacklist_remove_loop now rest s1

/-- `update_blacklist` (`contract.rs` lines 533-638). -/
def update_blacklist (s : ContractState) (now : ℕ) (sender : Account)
    (append_addrs remove_addrs : List Account) : Except ContractError ContractState :=
  if sender ≠ s.owner ∧ sender ≠ s.guardian then Except.error ContractError.Unauthorized
  else
    let append := append_addrs.filter (fun a => decide (a ∉ s.blacklist))
    let remove := remove_addrs.filter (fun a => decide (a ∈ s.blacklist))
    if append = [] ∧ remove = [] then Except.error ContractError.Std
    else
      let cur := get_period now
      let r := blacklist_append_loop cur append s 0 Decimal.zero
      let s2 :=
        if r.2.1 ≠ 0 ∨ (r.2.2.isZero = false) then
          checkpoint_total r.1 now none (some r.2.1) r.2.2 Decimal.zero
        else r.1
      match blacklist_remove_loop now remove s2 with
      | Except.error e => Except.error e
      | Except.ok s3 =>
          Except.ok { s3 with
            blacklist := (s3.blacklist.filter (fun a => decide (a ∉ remove))) ++ append }

/-- `get_user_lock_info` (`contract.rs` lines 678-691); `none` models the
"User is not found" error of the query. -/
def get_user_lock_info (s : ContractState) (user : Account) : Option LockInfoResponse :=
  match s.locked user with
  | some lock =>
      let resp : LockInfoResponse :=
        { amount := lock.amount, coefficient := calc_coefficient (lock.end_ - lock.start),
          start := lock.start, end_ := lock.end_ }
      some resp
  | none => none

/-- `get_user_voting_power` (`contract.rs` lines 696-724). -/
def get_user_voting_power (s : ContractState) (user : Account) (t : ℕ) : ℕ :=
  let period := get_period t
  match fetch_last_checkpoint (s.userHistory user) period with
  | none => 0
  | some kpt => if kpt.2.start = period then kpt.2.power else calc_voting_power kpt.2 period

/-- `get_total_voting_power` (`contract.rs` lines 736-774): replay the
scheduled slope changes since the latest global point without persisting. -/
def get_total_voting_power (s : ContractState) (t : ℕ) : ℕ :=
  let period := get_period t
  match fetch_last_checkpoint s.totalHistory period with
  | none => 0
  | some kpt =>
      if kpt.2.start = period then kpt.2.power
      else calc_voting_power
        (replay_slope_changes s.slopeChanges kpt.2 kpt.2.start (period - kpt.2.start)) period

/-- Decidable equality for `Except` results, so that concrete runs of the
model can be checked by `decide`. -/
instance {e a : Type} [DecidableEq e] [DecidableEq a] : DecidableEq (Except e a) := fun x y =>
  match x, y with
  | Except.ok u, Except.ok v =>
      if h : u = v then Decidable.isTrue (by subst h; rfl)
      else Decidable.isFalse (by intro hc; injection hc; contradiction)
  | Except.ok _, Except.error _ => Decidable.isFalse (by intro hc; injection hc)
  | Except.error _, Except.ok _ => Decidable.isFalse (by intro hc; injection hc)
  | Except.error u, Except.error v =>
      if h : u = v then Decidable.isTrue (by subst h; rfl)
      else Decidable.isFalse (by intro hc; injection hc; contradiction)

/-- Success test for `Except` results. -/
def except_is_ok {ε α : Type} : Except ε α → Bool
  | Except.ok _ => true
  | Except.error _ => false

/-! ### Basic lemmas about the storage helpers and the decay arithmetic -/

/-- The predecessor lookup only returns keys at most `p`. -/
theorem fetch_last_checkpoint_key_le {l : List (ℕ × Point)} {p : ℕ} {b : ℕ × Point}
    (h : fetch_last_checkpoint l p = some b) : b.1 ≤ p := by
  induction l with
  | nil => simp [fetch_last_checkpoint] at h
  | cons e rest ih =>
      unfold fetch_last_checkpoint at h
      cases hr : fetch_last_checkpoint rest p with
      | none =>
          rw [hr] at h
          by_cases he : e.1 ≤ p
          · rw [if_pos he] at h
            injection h with h
            subst h
            exact he
          · rw [if_neg he] at h
            exact absurd h (by simp)
      | some c =>
          rw [hr] at h
          dsimp only at h
          by_cases he : e.1 ≤ p ∧ c.1 < e.1
          · rw [if_pos he] at h
            injection h with h
            subst h
            exact he.1
          · rw [if_neg he] at h
            injection h with h
            subst h
            exact ih hr

/-- The predecessor lookup only returns entries of the list. -/
theorem fetch_last_checkpoint_mem {l : List (ℕ × Point)} {p : ℕ} {b : ℕ × Point}
    (h : fetch_last_checkpoint l p = some b) : b ∈ l := by
  induction l with
  | nil => simp [fetch_last_checkpoint] at h
  | cons e rest ih =>
      unfold fetch_last_checkpoint at h
      cases hr : fetch_last_checkpoint rest p with
      | none =>
          rw [hr] at h
          by_cases he : e.1 ≤ p
          · rw [if_pos he] at h
            injection h with h
            subst h
            exact List.mem_cons_self _ _
          · rw [if_neg he] at h
            exact absurd h (by simp)
      | some c =>
          rw [hr] at h
          dsimp only at h
          by_cases he : e.1 ≤ p ∧ c.1 < e.1
          · rw [if_pos he] at h
            injection h with h
            subst h
            exact List.mem_cons_self _ _
          · rw [if_neg he] at h
            injection h with h
            subst h
            exact List.mem_cons_of_mem _ (ih hr)

/-- Looking up exactly at the period of a fresh save returns the saved point. -/
theorem fetch_save_entry_self (l : List (ℕ × Point)) (k : ℕ) (v : Point) :
    fetch_last_checkpoint (save_entry l k v) k = some (k, v) := by
  unfold save_entry
  unfold fetch_last_checkpoint
  cases hf : fetch_last_checkpoint (l.filter (fun e => e.1 != k)) k with
  | none => simp
  | some b =>
      have hb1 : b.1 ≤ k := fetch_last_checkpoint_key_le hf
      have hbm : b ∈ l.filter (fun e => e.1 != k) := fetch_last_checkpoint_mem hf
      have hbne : b.1 ≠ k := by
        have := (List.mem_filter.mp hbm).2
        simpa using this
      have : b.1 < k := lt_of_le_of_ne hb1 hbne
      simp [this]

/-- At its own start period the decay line evaluates to the stored power. -/
theorem calc_voting_power_start {pt : Point} (hden : 0 < pt.slope.den) :
    calc_voting_power pt pt.start = pt.power := by
  unfold calc_voting_power line_num
  rw [Nat.sub_self]
  push_cast
  rw [mul_zero, sub_zero, Int.mul_ediv_cancel _ (by exact_mod_cast hden.ne')]
  exact Int.toNat_natCast _

/-- The decay value is antitone in the queried period. -/
theorem calc_voting_power_antitone {pt : Point} (hden : 0 < pt.slope.den)
    (hnum : 0 ≤ pt.slope.num) {p q : ℕ} (hpq : p ≤ q) :
    calc_voting_power pt q ≤ calc_voting_power pt p := by
  apply Int.toNat_le_toNat
  apply Int.ediv_le_ediv (by exact_mod_cast hden)
  unfold line_num
  have hc : ((p - pt.start : ℕ) : ℤ) ≤ ((q - pt.start : ℕ) : ℤ) := by
    exact_mod_cast Nat.sub_le_sub_right hpq _
  exact sub_le_sub_left (mul_le_mul_of_nonneg_left hc hnum) _

/-- A point whose power is exactly `slope * (end - start)` decays to zero at
`end` and stays zero afterwards. -/
theorem calc_voting_power_after_end {pt : Point} (hden : 0 < pt.slope.den)
    (hnum : 0 ≤ pt.slope.num)
    (hinv : (pt.power : ℤ) * (pt.slope.den : ℤ) = pt.slope.num * ((pt.end_ : ℤ) - (pt.start : ℤ)))
    (hse : pt.start ≤ pt.end_) {q : ℕ} (hq : pt.end_ ≤ q) :
    calc_voting_power pt q = 0 := by
  unfold calc_voting_power
  rw [Int.toNat_eq_zero]
  have hsq : pt.start ≤ q := le_trans hse hq
  have hq' : ((q - pt.start : ℕ) : ℤ) = (q : ℤ) - (pt.start : ℤ) := by omega
  have hnumval : line_num pt q = pt.slope.num * ((pt.end_ : ℤ) - (q : ℤ)) := by
    unfold line_num
    rw [hq', hinv]; ring
  rw [hnumval]
  have hle : pt.slope.num * ((pt.end_ : ℤ) - (q : ℤ)) ≤ 0 :=
    mul_nonpos_iff.mpr (Or.inl ⟨hnum, by omega⟩)
  calc pt.slope.num * ((pt.end_ : ℤ) - (q : ℤ)) / (pt.slope.den : ℤ)
      ≤ 0 / (pt.slope.den : ℤ) := Int.ediv_le_ediv (by exact_mod_cast hden) hle
    _ = 0 := Int.zero_ediv _

/-- When a checkpoint is found, the user query is the decay value of that
checkpoint at the queried period. -/
theorem get_user_voting_power_eq_calc {s : ContractState} {user : Account} {t k : ℕ} {pt : Point}
    (h : fetch_last_checkpoint (s.userHistory user) (get_period t) = some (k, pt))
    (hden : 0 < pt.slope.den) :
    get_user_voting_power s user t = calc_voting_power pt (get_period t) := by
  simp only [get_user_voting_power, h]
  by_cases hs : pt.start = get_period t
  · rw [if_pos hs, ← hs, calc_voting_power_start hden]
  · rw [if_neg hs]

/-- The point computed by the persisting catch-up loop and by the read-only
replay agree. -/
theorem catchup_loop_snd (hist : List (ℕ × Point)) (sched : ℕ → Decimal) (pt : Point)
    (fromExcl n : ℕ) :
    (catchup_loop hist sched pt fromExcl n).2 = replay_slope_changes sched pt fromExcl n := by
  induction n generalizing hist pt fromExcl with
  | zero => rfl
  | succ m ih =>
      simp only [catchup_loop, replay_slope_changes]
      by_cases hz : (sched (fromExcl + 1)).isZero = true
      · rw [if_pos hz, if_pos hz]
        exact ih _ _ _
      · rw [if_neg hz, if_neg hz]
        exact ih _ _ _

/-- The replay only consults the schedule inside the walked interval. -/
theorem replay_slope_changes_congr {sched sched' : ℕ → Decimal} {pt : Point} {fromExcl n : ℕ}
    (h : ∀ q, fromExcl < q → q ≤ fromExcl + n → sched' q = sched q) :
    replay_slope_changes sched' pt fromExcl n = replay_slope_changes sched pt fromExcl n := by
  induction n generalizing pt fromExcl with
  | zero => rfl
  | succ m ih =>
      simp only [replay_slope_changes]
      rw [h (fromExcl + 1) (by omega) (by omega)]
      by_cases hz : (sched (fromExcl + 1)).isZero = true
      · rw [if_pos hz, if_pos hz]
        exact ih (fun q h1 h2 => h q (by omega) (by omega))
      · rw [if_neg hz, if_neg hz]
        exact ih (fun q h1 h2 => h q (by omega) (by omega))

/-! ### Preservation lemmas -/

/-- Reduction of monadic sequencing on a success. -/
theorem except_bind_ok {e a b : Type} (x : a) (f : a → Except e b) :
    ((Except.ok x : Except e a) >>= f) = f x := rfl

/-- Reduction of monadic sequencing on an error. -/
theorem except_bind_error {e a b : Type} (err : e) (f : a → Except e b) :
    ((Except.error err : Except e a) >>= f) = (Except.error err : Except e b) := rfl

/-- `checkpoint_total` only touches the global history and the cursor. -/
theorem checkpoint_total_userHistory (s : ContractState) (now : ℕ)
    (avp rp : Option ℕ) (os ns : Decimal) :
    (checkpoint_total s now avp rp os ns).userHistory = s.userHistory := by
  unfold checkpoint_total
  dsimp only
  split
  · rfl
  · split <;> rfl

/-- `checkpoint_total` does not touch the lock registry. -/
theorem checkpoint_total_locked (s : ContractState) (now : ℕ)
    (avp rp : Option ℕ) (os ns : Decimal) :
    (checkpoint_total s now avp rp os ns).locked = s.locked := by
  unfold checkpoint_total
  dsimp only
  split
  · rfl
  · split <;> rfl

/-- `checkpoint_total` does not touch the slope schedule. -/
theorem checkpoint_total_slopeChanges (s : ContractState) (now : ℕ)
    (avp rp : Option ℕ) (os ns : Decimal) :
    (checkpoint_total s now avp rp os ns).slopeChanges = s.slopeChanges := by
  unfold checkpoint_total
  dsimp only
  split
  · rfl
  · split <;> rfl

/-- `checkpoint` with an explicit new end and an existing lock always
succeeds (no branch of the engine can fail then). -/
theorem checkpoint_is_ok (s : ContractState) (now : ℕ) (addr : Account)
    (add : Option ℕ) (e : ℕ) (lock : Lock) (hl : s.locked addr = some lock) :
    except_is_ok (checkpoint s now addr add (some e)) = true := by
  unfold checkpoint
  cases hf : fetch_last_checkpoint (s.userHistory addr) (get_period now) with
  | none =>
      simp only [hf]
      simp [except_is_ok]
  | some kpt =>
      simp only [hf, Option.getD_some]
      split_ifs with hdt hext
      · rw [hl]
        simp [checkpoint_finish, except_is_ok]
      · simp [checkpoint_finish, except_is_ok]
      · simp [checkpoint_finish, except_is_ok]

/-! ### The claims -/

/-- C1: the specification claims that for every reachable state and every
period `p` at or after the catch-up cursor, the global voting power equals
the independently recomputed sum of the per-account voting powers.  The code
truncates every voting-power read to an integer, so the global reading (one
truncation of the summed decay line) exceeds the sum of the per-account
readings (one truncation each): after two identical `create_lock`s
(amount 1000, 10 periods) at period 0, at period 2 (the cursor is still 0)
the global reading is 153 while the recomputed sum is 152. -/
theorem C1_total_vs_sum_eval :
    ((execute_create_lock (instantiate 0 100 101) 0 1 1000 (10 * WEEK)).bind (fun s1 =>
      (execute_create_lock s1 0 2 1000 (10 * WEEK)).map (fun s2 =>
        (get_total_voting_power s2 (2 * WEEK),
         get_user_voting_power s2 1 (2 * WEEK) + get_user_voting_power s2 2 (2 * WEEK),
         s2.lastSlopeChange))))
    = Except.ok (153, 152, 0) ∧ (153 : ℕ) ≠ 152 := by decide

/-- C6: immediately after `create_lock(owner, amount = 1000, duration = 10
periods)` with `MAX_LOCK_PERIODS = 104`, the owner's voting power at the
start period is `1000 * 10 / 104` truncated, that is `96`, and the stored
point's slope is the exact ratio `96 / 10`. -/
theorem C6_initial_power_law :
    (execute_create_lock (instantiate 0 100 101) 0 1 1000 (10 * WEEK)).map (fun s1 =>
      (get_user_voting_power s1 1 0,
       (fetch_last_checkpoint (s1.userHistory 1) 0).map (fun kp => kp.2.slope)))
      = Except.ok (96, some (Decimal.fromRatio 96 10))
    ∧ mul_uint_dec 1000 (calc_coefficient 10) = 1000 * 10 / 104
    ∧ (96 : ℕ) = 1000 * 10 / 104 := by decide

/-- C10: an account with no checkpoint at or before the queried period gets
voting power `0` from the query (it does not fail), while `lockInfo` is the
only query that fails (returns none) for an absent account. -/
theorem C10_absent_account (s : ContractState) (user : Account) (t : ℕ) :
    (fetch_last_checkpoint (s.userHistory user) (get_period t) = none →
      get_user_voting_power s user t = 0) ∧
    (s.locked user = none → get_user_lock_info s user = none) := by
  constructor
  · intro h
    simp [get_user_voting_power, h]
  · intro h
    simp [get_user_lock_info, h]

/-- Witness for C10 at a concrete fresh state and account. -/
theorem C10_absent_account_witness :
    get_user_voting_power (instantiate 0 100 101) 5 0 = 0 ∧
    get_user_lock_info (instantiate 0 100 101) 5 = none :=
  ⟨(C10_absent_account (instantiate 0 100 101) 5 0).1 (by decide),
   (C10_absent_account (instantiate 0 100 101) 5 0).2 (by decide)⟩

/-- C4: `withdraw` fails with `LockDoesntExist` without a lock, fails with
`LockHasNotExpired` while `end > currentPeriod`, and otherwise deletes the
lock, writes the terminal zero point at the current period and transfers the
locked amount back. -/
theorem C4_withdraw (s : ContractState) (now : ℕ) (sender : Account) (lock : Lock) :
    (s.locked sender = none →
      withdraw s now sender = Except.error ContractError.LockDoesntExist) ∧
    (s.locked sender = some lock → get_period now < lock.end_ →
      withdraw s now sender = Except.error ContractError.LockHasNotExpired) ∧
    (s.locked sender = some lock → lock.end_ ≤ get_period now →
      (withdraw s now sender).map (fun r =>
        (r.1.locked sender,
         fetch_last_checkpoint (r.1.userHistory sender) (get_period now),
         r.2))
        = Except.ok (none,
            some (get_period now,
              { power := 0, start := get_period now, end_ := get_period now,
                slope := Decimal.zero }),
            lock.amount)) := by
  refine ⟨?_, ?_, ?_⟩
  · intro h
    simp [withdraw, h]
  · intro h hlt
    simp [withdraw, h, hlt]
  · intro h hge
    have hnlt : ¬ get_period now < lock.end_ := not_lt.mpr hge
    simp only [withdraw, h]
    rw [if_neg hnlt]
    simp [Except.map, ContractState.removeLock, ContractState.saveUserPoint,
      fetch_save_entry_self]

/-- Witness for C4: all three branches at concrete inputs (no lock; a lock
of 500 ending at period 2 queried at period 0 and at period 2). -/
theorem C4_withdraw_witness :
    (withdraw (instantiate 0 100 101) 0 7 = Except.error ContractError.LockDoesntExist) ∧
    (withdraw ((instantiate 0 100 101).saveLock 1 { amount := 500, start := 0, end_ := 2 }) 0 1
      = Except.error ContractError.LockHasNotExpired) ∧
    ((withdraw ((instantiate 0 100 101).saveLock 1 { amount := 500, start := 0, end_ := 2 })
        (2 * WEEK) 1).map (fun r =>
        (r.1.locked 1, fetch_last_checkpoint (r.1.userHistory 1) (get_period (2 * WEEK)), r.2))
      = Except.ok (none,
          some (get_period (2 * WEEK),
            { power := 0, start := get_period (2 * WEEK), end_ := get_period (2 * WEEK),
              slope := Decimal.zero }),
          500)) :=
  ⟨(C4_withdraw (instantiate 0 100 101) 0 7 { amount := 500, start := 0, end_ := 2 }).1 (by decide),
   ((C4_withdraw ((instantiate 0 100 101).saveLock 1 { amount := 500, start := 0, end_ := 2 }) 0 1
      { amount := 500, start := 0, end_ := 2 }).2.1 (by decide) (by decide)),
   ((C4_withdraw ((instantiate 0 100 101).saveLock 1 { amount := 500, start := 0, end_ := 2 })
      (2 * WEEK) 1 { amount := 500, start := 0, end_ := 2 }).2.2 (by decide) (by decide))⟩

/-- C7: `create_lock` rejects durations under one period or over
`MAX_LOCK_PERIODS` with `LockTimeLimitsError` and accepts the exact
boundaries. -/
theorem C7_duration_bounds (s : ContractState) (now : ℕ) (user : Account) (amount time : ℕ)
    (hnb : user ∉ s.blacklist) (hl : s.locked user = none) :
    (time < WEEK →
      execute_create_lock s now user amount time = Except.error ContractError.LockTimeLimitsError) ∧
    (MAX_LOCK_TIME < time →
      execute_create_lock s now user amount time = Except.error ContractError.LockTimeLimitsError) ∧
    ((time = MIN_LOCK_PERIODS * WEEK ∨ time = MAX_LOCK_PERIODS * WEEK) →
      except_is_ok (execute_create_lock s now user amount time) = true) := by
  have hbc : blacklist_check s user = Except.ok () := by
    simp [blacklist_check, hnb]
  refine ⟨?_, ?_, ?_⟩
  · intro h
    have htc : time_limits_check time = Except.error ContractError.LockTimeLimitsError := by
      unfold time_limits_check
      rw [if_neg (by omega)]
    simp only [execute_create_lock, create_lock, hbc, htc, except_bind_ok, except_bind_error]
  · intro h
    have htc : time_limits_check time = Except.error ContractError.LockTimeLimitsError := by
      unfold time_limits_check
      rw [if_neg (by omega)]
    simp only [execute_create_lock, create_lock, hbc, htc, except_bind_ok, except_bind_error]
  · intro h
    have hok : WEEK ≤ time ∧ time ≤ MAX_LOCK_TIME := by
      rcases h with h | h <;>
        simp only [h, MIN_LOCK_PERIODS, MAX_LOCK_TIME, MAX_LOCK_PERIODS, WEEK] <;> omega
    have htc : time_limits_check time = Except.ok () := by
      unfold time_limits_check
      rw [if_pos hok]
    simp only [execute_create_lock, create_lock, hbc, htc, except_bind_ok, hl]
    exact checkpoint_is_ok _ now user (some amount) (get_period now + get_period time)
      { amount := amount, start := get_period now, end_ := get_period now + get_period time }
      (by simp [ContractState.saveLock])

/-- Witness for C7 at a fresh state: duration 0, 105 periods, 1 period and
104 periods. -/
theorem C7_duration_bounds_witness :
    (execute_create_lock (instantiate 0 100 101) 0 1 1000 0
      = Except.error ContractError.LockTimeLimitsError) ∧
    (execute_create_lock (instantiate 0 100 101) 0 1 1000 (105 * WEEK)
      = Except.error ContractError.LockTimeLimitsError) ∧
    (except_is_ok (execute_create_lock (instantiate 0 100 101) 0 1 1000 (1 * WEEK)) = true) ∧
    (except_is_ok (execute_create_lock (instantiate 0 100 101) 0 1 1000 (104 * WEEK)) = true) :=
  ⟨(C7_duration_bounds (instantiate 0 100 101) 0 1 1000 0 (by decide) (by decide)).1 (by decide),
   (C7_duration_bounds (instantiate 0 100 101) 0 1 1000 (105 * WEEK) (by decide) (by decide)).2.1
     (by decide),
   (C7_duration_bounds (instantiate 0 100 101) 0 1 1000 (1 * WEEK) (by decide) (by decide)).2.2
     (Or.inl (by decide)),
   (C7_duration_bounds (instantiate 0 100 101) 0 1 1000 (104 * WEEK) (by decide) (by decide)).2.2
     (Or.inr (by decide))⟩

/-- C3: a pure lock-time extension (existing point, new end strictly beyond
the point's end, no amount added) recomputes the power fresh as
`amount * coefficient(dt)` for `dt = new end - current period` (the code
stores `current_power + (amount * coefficient(dt) - current_power)`, which
equals the fresh power because the fresh power is at least the current
power), and the slope as that recomputed power divided by `dt`. -/
theorem C3_pure_extension (s : ContractState) (now : ℕ) (addr : Account) (e k : ℕ)
    (pt : Point) (lock : Lock)
    (hcp : fetch_last_checkpoint (s.userHistory addr) (get_period now) = some (k, pt))
    (hlock : s.locked addr = some lock)
    (he : pt.end_ < e)
    (hdt : get_period now < e)
    (hmono : calc_voting_power pt (get_period now) ≤
      mul_uint_dec lock.amount (calc_coefficient (e - get_period now))) :
    (checkpoint s now addr none (some e)).map (fun s2 =>
        fetch_last_checkpoint (s2.userHistory addr) (get_period now))
      = Except.ok (some (get_period now,
          { power := mul_uint_dec lock.amount (calc_coefficient (e - get_period now)),
            start := get_period now, end_ := e,
            slope := Decimal.fromRatio
              (mul_uint_dec lock.amount (calc_coefficient (e - get_period now)))
              (e - get_period now) })) := by
  unfold checkpoint
  simp only [hcp, Option.getD_some, Option.getD_none]
  rw [if_pos (by omega : e - get_period now ≠ 0)]
  rw [if_pos (⟨he, trivial⟩ : pt.end_ < e ∧ True)]
  rw [hlock]
  unfold checkpoint_finish
  simp only [Except.map]
  rw [checkpoint_total_userHistory]
  simp only [ContractState.saveUserPoint, schedule_slope_change, cancel_scheduled_slope,
    ContractState.saveLock]
  rw [if_pos trivial, fetch_save_entry_self]
  have hp : calc_voting_power pt (get_period now) +
      (mul_uint_dec lock.amount (calc_coefficient (e - get_period now)) -
        calc_voting_power pt (get_period now))
      = mul_uint_dec lock.amount (calc_coefficient (e - get_period now)) := by omega
  rw [hp]

/-- Witness for C3: a lock of 1000 for 10 periods checkpointed at period 0,
extended at period 2 to end at period 14. -/
theorem C3_pure_extension_witness :
    (checkpoint
        (((instantiate 0 100 101).saveLock 1 { amount := 1000, start := 0, end_ := 10 }).saveUserPoint
          1 0 { power := 96, start := 0, end_ := 10, slope := Decimal.fromRatio 96 10 })
        (2 * WEEK) 1 none (some 14)).map (fun s2 =>
        fetch_last_checkpoint (s2.userHistory 1) (get_period (2 * WEEK)))
      = Except.ok (some (get_period (2 * WEEK),
          { power := mul_uint_dec 1000 (calc_coefficient (14 - get_period (2 * WEEK))),
            start := get_period (2 * WEEK), end_ := 14,
            slope := Decimal.fromRatio
              (mul_uint_dec 1000 (calc_coefficient (14 - get_period (2 * WEEK))))
              (14 - get_period (2 * WEEK)) })) :=
  C3_pure_extension
    (((instantiate 0 100 101).saveLock 1 { amount := 1000, start := 0, end_ := 10 }).saveUserPoint
      1 0 { power := 96, start := 0, end_ := 10, slope := Decimal.fromRatio 96 10 })
    (2 * WEEK) 1 14 0
    { power := 96, start := 0, end_ := 10, slope := Decimal.fromRatio 96 10 }
    { amount := 1000, start := 0, end_ := 10 }
    (by decide) (by decide) (by decide) (by decide) (by decide)

/-- The period of a time inside the limits is at least one. -/
theorem get_period_pos_of_week_le {time : ℕ} (h : WEEK ≤ time) : 1 ≤ get_period time := by
  unfold get_period
  exact (Nat.one_le_div_iff (by norm_num [WEEK])).mpr h

/-- C9: a successful `extend_lock_time` keeps the amount, adds the extension
periods to the lock's end, and also rewrites the lock's start to the current
period, so a subsequent `lockInfo` reports `start = extension period` and a
coefficient recomputed from `end - new start`. -/
theorem C9_extend_rewrites_start (s : ContractState) (now : ℕ) (user : Account) (time k : ℕ)
    (lock : Lock) (pt : Point)
    (hnb : user ∉ s.blacklist)
    (hlock : s.locked user = some lock)
    (ht : WEEK ≤ time) (ht2 : time ≤ MAX_LOCK_TIME)
    (hexp : get_period now < lock.end_)
    (ht3 : WEEK ≤ lock.end_ * WEEK + time - now)
    (ht4 : lock.end_ * WEEK + time - now ≤ MAX_LOCK_TIME)
    (hcp : fetch_last_checkpoint (s.userHistory user) (get_period now) = some (k, pt))
    (hend : pt.end_ = lock.end_) :
    (extend_lock_time s now user time).map (fun s2 =>
        (s2.locked user, get_user_lock_info s2 user))
      = Except.ok
          (some { amount := lock.amount, start := get_period now,
                  end_ := lock.end_ + get_period time },
           some { amount := lock.amount,
                  coefficient :=
                    calc_coefficient (lock.end_ + get_period time - get_period now),
                  start := get_period now, end_ := lock.end_ + get_period time }) := by
  have hbc : blacklist_check s user = Except.ok () := by
    simp [blacklist_check, hnb]
  have htc : time_limits_check time = Except.ok () := by
    unfold time_limits_check
    rw [if_pos ⟨ht, ht2⟩]
  have htc2 : time_limits_check (lock.end_ * WEEK + time - now) = Except.ok () := by
    unfold time_limits_check
    rw [if_pos ⟨ht3, ht4⟩]
  have hp1 : 1 ≤ get_period time := get_period_pos_of_week_le ht
  unfold extend_lock_time
  rw [hbc, except_bind_ok, hlock]
  dsimp only
  rw [htc, except_bind_ok]
  rw [if_neg (by omega : ¬ lock.end_ ≤ get_period now)]
  rw [htc2, except_bind_ok]
  unfold checkpoint
  have hcp2 : fetch_last_checkpoint
      ((s.saveLock user { lock with end_ := lock.end_ + get_period time }).userHistory user)
      (get_period now) = some (k, pt) := hcp
  dsimp only
  rw [hcp2]
  dsimp only
  simp only [Option.getD_some, Option.getD_none]
  rw [if_pos (by omega : lock.end_ + get_period time - get_period now ≠ 0)]
  rw [if_pos (⟨by omega, trivial⟩ : pt.end_ < lock.end_ + get_period time ∧ True)]
  have hlock2 : (s.saveLock user { lock with end_ := lock.end_ + get_period time }).locked user
      = some { lock with end_ := lock.end_ + get_period time } := by
    simp [ContractState.saveLock]
  rw [hlock2]
  unfold checkpoint_finish
  simp only [Except.map]
  rw [checkpoint_total_locked]
  simp only [ContractState.saveUserPoint, schedule_slope_change, cancel_scheduled_slope,
    ContractState.saveLock]
  simp [get_user_lock_info, checkpoint_total_locked]

/-- Witness for C9: the lock of 1000 ending at period 10, extended by 4
periods at period 2. -/
theorem C9_extend_rewrites_start_witness :
    (extend_lock_time
        (((instantiate 0 100 101).saveLock 1 { amount := 1000, start := 0, end_ := 10 }).saveUserPoint
          1 0 { power := 96, start := 0, end_ := 10, slope := Decimal.fromRatio 96 10 })
        (2 * WEEK) 1 (4 * WEEK)).map (fun s2 => (s2.locked 1, get_user_lock_info s2 1))
      = Except.ok
          (some { amount := 1000, start := get_period (2 * WEEK),
                  end_ := 10 + get_period (4 * WEEK) },
           some { amount := 1000,
                  coefficient :=
                    calc_coefficient (10 + get_period (4 * WEEK) - get_period (2 * WEEK)),
                  start := get_period (2 * WEEK), end_ := 10 + get_period (4 * WEEK) }) :=
  C9_extend_rewrites_start
    (((instantiate 0 100 101).saveLock 1 { amount := 1000, start := 0, end_ := 10 }).saveUserPoint
      1 0 { power := 96, start := 0, end_ := 10, slope := Decimal.fromRatio 96 10 })
    (2 * WEEK) 1 (4 * WEEK) 0
    { amount := 1000, start := 0, end_ := 10 }
    { power := 96, start := 0, end_ := 10, slope := Decimal.fromRatio 96 10 }
    (by decide) (by decide) (by decide) (by decide) (by decide) (by decide) (by decide)
    (by decide) (by decide)

/-- C8: for an untouched lock (both queries governed by the same checkpoint
whose power is exactly `slope * (end - start)`), the queried voting power is
antitone in time and is zero at and after the lock's end. -/
theorem C8_decay_monotonicity (s : ContractState) (acc : Account) (t1 t2 k1 k2 : ℕ) (pt : Point)
    (h1 : fetch_last_checkpoint (s.userHistory acc) (get_period t1) = some (k1, pt))
    (h2 : fetch_last_checkpoint (s.userHistory acc) (get_period t2) = some (k2, pt))
    (hden : 0 < pt.slope.den)
    (hnum : 0 ≤ pt.slope.num)
    (hinv : (pt.power : ℤ) * (pt.slope.den : ℤ) = pt.slope.num * ((pt.end_ : ℤ) - (pt.start : ℤ)))
    (hse : pt.start ≤ pt.end_)
    (h12 : t1 ≤ t2) :
    get_user_voting_power s acc t2 ≤ get_user_voting_power s acc t1 ∧
    (pt.end_ ≤ get_period t2 → get_user_voting_power s acc t2 = 0) := by
  rw [get_user_voting_power_eq_calc h1 hden, get_user_voting_power_eq_calc h2 hden]
  constructor
  · exact calc_voting_power_antitone hden hnum (Nat.div_le_div_right h12)
  · intro hend2
    exact calc_voting_power_after_end hden hnum hinv hse hend2

/-- Witness for C8: the lock of 1000 over periods 0..10, queried at time 0
and at 12 weeks. -/
theorem C8_decay_monotonicity_witness :
    get_user_voting_power
        (((instantiate 0 100 101).saveLock 1 { amount := 1000, start := 0, end_ := 10 }).saveUserPoint
          1 0 { power := 96, start := 0, end_ := 10, slope := Decimal.fromRatio 96 10 })
        1 (12 * WEEK)
      ≤ get_user_voting_power
        (((instantiate 0 100 101).saveLock 1 { amount := 1000, start := 0, end_ := 10 }).saveUserPoint
          1 0 { power := 96, start := 0, end_ := 10, slope := Decimal.fromRatio 96 10 })
        1 0 ∧
    get_user_voting_power
        (((instantiate 0 100 101).saveLock 1 { amount := 1000, start := 0, end_ := 10 }).saveUserPoint
          1 0 { power := 96, start := 0, end_ := 10, slope := Decimal.fromRatio 96 10 })
        1 (12 * WEEK) = 0 :=
  ⟨(C8_decay_monotonicity
      (((instantiate 0 100 101).saveLock 1 { amount := 1000, start := 0, end_ := 10 }).saveUserPoint
        1 0 { power := 96, start := 0, end_ := 10, slope := Decimal.fromRatio 96 10 })
      1 0 (12 * WEEK) 0 0
      { power := 96, start := 0, end_ := 10, slope := Decimal.fromRatio 96 10 }
      (by decide) (by decide) (by decide) (by decide) (by decide) (by decide) (by decide)).1,
   (C8_decay_monotonicity
      (((instantiate 0 100 101).saveLock 1 { amount := 1000, start := 0, end_ := 10 }).saveUserPoint
        1 0 { power := 96, start := 0, end_ := 10, slope := Decimal.fromRatio 96 10 })
      1 0 (12 * WEEK) 0 0
      { power := 96, start := 0, end_ := 10, slope := Decimal.fromRatio 96 10 }
      (by decide) (by decide) (by decide) (by decide) (by decide) (by decide) (by decide)).2
    (by decide)⟩

/-- C2, counterexample to "the line reaches zero exactly at `end`, never
before": a lock of amount 1 for 10 periods truncates to power 0, so the
stored decay line is zero already at the start period, nine periods before
the lock's end. -/
theorem C2_exact_expiry_cex :
    ((execute_create_lock (instantiate 0 100 101) 0 1 1 (10 * WEEK)).map (fun s2 =>
        (s2.userHistory 1, get_user_voting_power s2 1 0))
      = Except.ok ([(0, { power := 0, start := 0, end_ := 10, slope := Decimal.fromRatio 0 10 })], 0))
    ∧ line_num { power := 0, start := 0, end_ := 10, slope := Decimal.fromRatio 0 10 } 0 = 0
    ∧ (0 : ℕ) < 10 := by decide

/-- C2 (amended): after a fresh `create_lock`, the account's queried voting
power is zero at the lock's end and at every later period, the stored decay
line vanishes exactly at the end, and, provided the truncated power is
nonzero, the line is strictly positive at every period before the end. -/
theorem C2_exact_expiry (s : ContractState) (now : ℕ) (user : Account) (amount time : ℕ)
    (P : ℕ) (ptN : Point)
    (hnb : user ∉ s.blacklist) (hl : s.locked user = none) (hh : s.userHistory user = [])
    (ht : WEEK ≤ time) (ht2 : time ≤ MAX_LOCK_TIME)
    (hP : P = mul_uint_dec amount (calc_coefficient (get_period time)))
    (hpt : ptN =
      { power := P, start := get_period now,
        end_ := get_period now + get_period time,
        slope := Decimal.fromRatio P (get_period time) }) :
    ((execute_create_lock s now user amount time).map (fun s2 => s2.userHistory user)
      = Except.ok [(get_period now, ptN)]) ∧
    (∀ t, get_period now + get_period time ≤ get_period t →
      (execute_create_lock s now user amount time).map (fun s2 =>
        get_user_voting_power s2 user t) = Except.ok 0) ∧
    (line_num ptN (get_period now + get_period time) = 0) ∧
    (0 < P → ∀ p, get_period now ≤ p → p < get_period now + get_period time →
      0 < line_num ptN p) := by
  have hbc : blacklist_check s user = Except.ok () := by
    simp [blacklist_check, hnb]
  have htc : time_limits_check time = Except.ok () := by
    unfold time_limits_check
    rw [if_pos ⟨ht, ht2⟩]
  have hp1 : 1 ≤ get_period time := get_period_pos_of_week_le ht
  have hfetch : fetch_last_checkpoint
      ((s.saveLock user
          { amount := amount, start := get_period now,
            end_ := get_period now + get_period time }).userHistory user)
      (get_period now) = none := by
    show fetch_last_checkpoint (s.userHistory user) (get_period now) = none
    rw [hh]
    rfl
  have huh : ∀ s2, execute_create_lock s now user amount time = Except.ok s2 →
      s2.userHistory user = [(get_period now, ptN)] := by
    intro s2 hs2
    rw [execute_create_lock, hbc, except_bind_ok, create_lock, htc, except_bind_ok] at hs2
    dsimp only at hs2
    rw [hl] at hs2
    dsimp only at hs2
    rw [checkpoint] at hs2
    dsimp only at hs2
    rw [hfetch] at hs2
    dsimp only at hs2
    injection hs2 with hs2
    subst hs2
    rw [checkpoint_total_userHistory]
    simp only [ContractState.saveUserPoint, schedule_slope_change, ContractState.saveLock]
    rw [if_pos trivial]
    rw [hh]
    simp only [Option.getD_some, save_entry, List.filter_nil, Nat.add_sub_cancel_left, hpt, hP]
  have hEok : ∃ s2, execute_create_lock s now user amount time = Except.ok s2 := by
    have := checkpoint_is_ok
      (s.saveLock user
        { amount := amount, start := get_period now,
          end_ := get_period now + get_period time })
      now user (some amount) (get_period now + get_period time)
      { amount := amount, start := get_period now, end_ := get_period now + get_period time }
      (by simp [ContractState.saveLock])
    rw [execute_create_lock, hbc, except_bind_ok, create_lock, htc, except_bind_ok]
    dsimp only
    rw [hl]
    dsimp only
    cases hc : checkpoint
        (s.saveLock user
          { amount := amount, start := get_period now,
            end_ := get_period now + get_period time })
        now user (some amount) (some (get_period now + get_period time)) with
    | ok s2 => exact ⟨s2, rfl⟩
    | error err => rw [hc] at this; simp [except_is_ok] at this
  obtain ⟨s2, hs2⟩ := hEok
  have huh2 := huh s2 hs2
  have hden : (0 : ℕ) < ptN.slope.den := by
    rw [hpt]
    exact hp1
  have hnum : (0 : ℤ) ≤ ptN.slope.num := by
    rw [hpt]
    exact Int.natCast_nonneg P
  refine ⟨?_, ?_, ?_, ?_⟩
  · rw [hs2]
    simp only [Except.map]
    rw [huh2]
  · intro t htle
    rw [hs2]
    simp only [Except.map]
    rw [get_user_voting_power]
    rw [huh2]
    have hkle : get_period now ≤ get_period t := by omega
    rw [show fetch_last_checkpoint [(get_period now, ptN)] (get_period t)
        = some (get_period now, ptN) by simp [fetch_last_checkpoint, hkle]]
    dsimp only
    have hne : ¬ ptN.start = get_period t := by
      rw [hpt]
      dsimp only
      omega
    rw [if_neg hne]
    have hzero : calc_voting_power ptN (get_period t) = 0 := by
      apply calc_voting_power_after_end hden hnum
      · rw [hpt]
        dsimp only [Decimal.fromRatio]
        have hcast : ((get_period now + get_period time : ℕ) : ℤ) - ((get_period now : ℕ) : ℤ)
            = ((get_period time : ℕ) : ℤ) := by omega
        rw [hcast]
      · rw [hpt]
        dsimp only
        omega
      · rw [hpt]
        dsimp only
        omega
    rw [hzero]
  · rw [hpt]
    unfold line_num
    dsimp only [Decimal.fromRatio]
    rw [Nat.add_sub_cancel_left]
    ring
  · intro hPpos p hp1' hp2
    rw [hpt]
    unfold line_num
    dsimp only [Decimal.fromRatio]
    have hlt : ((p - get_period now : ℕ) : ℤ) < (get_period time : ℤ) := by omega
    have hPz : (0 : ℤ) < (P : ℤ) := by exact_mod_cast hPpos
    nlinarith

/-- Witness for C2 (amended): the lock of 1000 for 10 periods, checked at the
end period, well after the end, and strictly inside the decay window. -/
theorem C2_exact_expiry_witness :
    ((execute_create_lock (instantiate 0 100 101) 0 1 1000 (10 * WEEK)).map (fun s2 =>
        get_user_voting_power s2 1 (10 * WEEK)) = Except.ok 0) ∧
    ((execute_create_lock (instantiate 0 100 101) 0 1 1000 (10 * WEEK)).map (fun s2 =>
        get_user_voting_power s2 1 (25 * WEEK)) = Except.ok 0) ∧
    line_num { power := 96, start := 0, end_ := 10, slope := Decimal.fromRatio 96 10 }
      (get_period 0 + get_period (10 * WEEK)) = 0 ∧
    0 < line_num { power := 96, start := 0, end_ := 10, slope := Decimal.fromRatio 96 10 } 5 :=
  ⟨(C2_exact_expiry (instantiate 0 100 101) 0 1 1000 (10 * WEEK) 96
      { power := 96, start := 0, end_ := 10, slope := Decimal.fromRatio 96 10 }
      (by decide) (by decide) (by decide) (by decide) (by decide) (by decide) (by decide)).2.1
      (10 * WEEK) (by decide),
   (C2_exact_expiry (instantiate 0 100 101) 0 1 1000 (10 * WEEK) 96
      { power := 96, start := 0, end_ := 10, slope := Decimal.fromRatio 96 10 }
      (by decide) (by decide) (by decide) (by decide) (by decide) (by decide) (by decide)).2.1
      (25 * WEEK) (by decide),
   (C2_exact_expiry (instantiate 0 100 101) 0 1 1000 (10 * WEEK) 96
      { power := 96, start := 0, end_ := 10, slope := Decimal.fromRatio 96 10 }
      (by decide) (by decide) (by decide) (by decide) (by decide) (by decide) (by decide)).2.2.1,
   (C2_exact_expiry (instantiate 0 100 101) 0 1 1000 (10 * WEEK) 96
      { power := 96, start := 0, end_ := 10, slope := Decimal.fromRatio 96 10 }
      (by decide) (by decide) (by decide) (by decide) (by decide) (by decide) (by decide)).2.2.2
      (by decide) 5 (by decide) (by decide)⟩

/-- C5, counterexample to "decreases the global power by exactly `v`": with
account 1 locking 1000 for 10 periods and account 2 locking 70 for 2 periods
at period 0, blacklisting account 1 at period 3 meets a global reading of 66
(the catch-up materialised a truncated global point at period 2), while
account 1's current power is `v = 67`; the new global power saturates at 0,
a decrease of 66, not 67. -/
theorem C5_blacklist_zeroing_cex :
    ((execute_create_lock (instantiate 0 100 101) 0 1 1000 (10 * WEEK)).bind (fun s1 =>
      (execute_create_lock s1 0 2 70 (2 * WEEK)).bind (fun s2 =>
        (update_blacklist s2 (3 * WEEK) 100 [1] []).map (fun s3 =>
          ((fetch_last_checkpoint (s2.userHistory 1) 3).map (fun kp =>
            calc_voting_power kp.2 3),
           get_total_voting_power s2 (3 * WEEK),
           get_total_voting_power s3 (3 * WEEK),
           get_user_voting_power s3 1 (3 * WEEK))))))
    = Except.ok (some 67, 66, 0, 0) ∧ (66 : ℕ) - 0 ≠ 67 := by decide

/-- C5 (amended): appending an account with nonzero current power `v` to the
blacklist writes a zero point for it at the current period, cancels its
scheduled slope change, zeroes its queried voting power, and lowers the
global voting power by `v` saturating at zero (the decrease is exactly `v`
whenever the global reading is at least `v`; integer truncation of the
global catch-up can leave it below `v`, as the counterexample shows). -/
theorem C5_blacklist_zeroing (s : ContractState) (now : ℕ) (a : Account) (k k0 : ℕ)
    (pt pt0 : Point)
    (hnb : a ∉ s.blacklist)
    (hcp : fetch_last_checkpoint (s.userHistory a) (get_period now) = some (k, pt))
    (hv : calc_voting_power pt (get_period now) ≠ 0)
    (hend : get_period now < pt.end_)
    (htot : fetch_last_checkpoint s.totalHistory (get_period now) = some (k0, pt0))
    (hsync : s.lastSlopeChange = pt0.start)
    (hle : pt0.start ≤ get_period now)
    (hden0 : 0 < pt0.slope.den) :
    (update_blacklist s now s.owner [a] []).map (fun s2 =>
        (get_user_voting_power s2 a now,
         fetch_last_checkpoint (s2.userHistory a) (get_period now),
         get_total_voting_power s2 now,
         s2.slopeChanges pt.end_))
      = Except.ok
          (0,
           some (get_period now,
             { power := 0, start := get_period now, end_ := get_period now,
               slope := Decimal.zero }),
           get_total_voting_power s now - calc_voting_power pt (get_period now),
           (s.slopeChanges pt.end_).sub pt.slope) := by
  have hv0 : 0 + calc_voting_power pt (get_period now) ≠ 0 := by omega
  unfold update_blacklist
  rw [if_neg (by simp : ¬ (s.owner ≠ s.owner ∧ s.owner ≠ s.guardian))]
  dsimp only
  rw [show (List.filter (fun x => decide (x ∉ s.blacklist)) [a]) = [a] by simp [hnb]]
  rw [if_neg (by simp : ¬ ([a] = ([] : List Account)
      ∧ List.filter (fun x => decide (x ∈ s.blacklist)) ([] : List Account) = []))]
  rw [show blacklist_append_loop (get_period now) [a] s 0 Decimal.zero
      = (cancel_scheduled_slope
          (s.saveUserPoint a (get_period now)
            { power := 0, start := get_period now, end_ := get_period now,
              slope := Decimal.zero })
          pt.slope pt.end_,
        0 + calc_voting_power pt (get_period now),
        Decimal.zero.add pt.slope) by
    unfold blacklist_append_loop
    rw [hcp]
    dsimp only
    rw [if_neg hv]
    rfl]
  dsimp only
  rw [if_pos (Or.inl hv0)]
  dsimp only [blacklist_remove_loop]
  simp only [Except.map]
  refine congrArg Except.ok ?_
  simp only [Prod.mk.injEq]
  refine ⟨?_, ?_, ?_, ?_⟩
  · simp only [get_user_voting_power, checkpoint_total_userHistory]
    dsimp only [cancel_scheduled_slope, ContractState.saveUserPoint]
    rw [if_pos rfl, fetch_save_entry_self]
    dsimp only
    rw [if_pos rfl]
  · simp only [checkpoint_total_userHistory]
    dsimp only [cancel_scheduled_slope, ContractState.saveUserPoint]
    rw [if_pos rfl, fetch_save_entry_self]
  · rcases lt_or_eq_of_le hle with hlt | heq
    · simp only [get_total_voting_power]
      dsimp only [checkpoint_total, cancel_scheduled_slope, ContractState.saveUserPoint]
      rw [hsync, htot]
      dsimp only
      rw [if_pos hlt]
      dsimp only
      rw [fetch_save_entry_self]
      dsimp only
      rw [if_pos rfl, if_neg (by omega : ¬ pt0.start = get_period now)]
      rw [catchup_loop_snd]
      rw [replay_slope_changes_congr (fun q h1 h2 => by
        rw [if_neg (by omega : ¬ q = pt.end_)])]
      simp only [Option.getD_some, Option.getD_none]
      omega
    · simp only [get_total_voting_power]
      dsimp only [checkpoint_total, cancel_scheduled_slope, ContractState.saveUserPoint]
      rw [hsync, htot]
      dsimp only
      rw [if_neg (by omega : ¬ pt0.start < get_period now)]
      dsimp only
      rw [fetch_save_entry_self]
      dsimp only
      rw [if_pos rfl, if_pos heq]
      have hst := calc_voting_power_start hden0
      rw [heq] at hst
      rw [hst]
      simp only [Option.getD_some, Option.getD_none]
      omega
  · simp only [checkpoint_total_slopeChanges]
    dsimp only [cancel_scheduled_slope, ContractState.saveUserPoint]
    rw [if_pos rfl]

/-- Witness for C5 (amended): a single account locking 1000 for 10 periods
at period 0, blacklisted at period 3 (global reading 67 = its power). -/
theorem C5_blacklist_zeroing_witness :
    (update_blacklist
        (((instantiate 0 100 101).saveLock 1 { amount := 1000, start := 0, end_ := 10 }).saveUserPoint
          1 0 { power := 96, start := 0, end_ := 10, slope := Decimal.fromRatio 96 10 })
        (3 * WEEK)
        (((instantiate 0 100 101).saveLock 1 { amount := 1000, start := 0, end_ := 10 }).saveUserPoint
          1 0 { power := 96, start := 0, end_ := 10, slope := Decimal.fromRatio 96 10 }).owner
        [1] []).map (fun s2 =>
        (get_user_voting_power s2 1 (3 * WEEK),
         fetch_last_checkpoint (s2.userHistory 1) (get_period (3 * WEEK)),
         get_total_voting_power s2 (3 * WEEK),
         s2.slopeChanges 10))
      = Except.ok
          (0,
           some (get_period (3 * WEEK),
             { power := 0, start := get_period (3 * WEEK), end_ := get_period (3 * WEEK),
               slope := Decimal.zero }),
           get_total_voting_power
             (((instantiate 0 100 101).saveLock 1 { amount := 1000, start := 0, end_ := 10 }).saveUserPoint
               1 0 { power := 96, start := 0, end_ := 10, slope := Decimal.fromRatio 96 10 })
             (3 * WEEK)
             - calc_voting_power { power := 96, start := 0, end_ := 10, slope := Decimal.fromRatio 96 10 } 3,
           ((((instantiate 0 100 101).saveLock 1 { amount := 1000, start := 0, end_ := 10 }).saveUserPoint
               1 0 { power := 96, start := 0, end_ := 10, slope := Decimal.fromRatio 96 10 }).slopeChanges
             10).sub (Decimal.fromRatio 96 10)) :=
  C5_blacklist_zeroing
    (((instantiate 0 100 101).saveLock 1 { amount := 1000, start := 0, end_ := 10 }).saveUserPoint
      1 0 { power := 96, start := 0, end_ := 10, slope := Decimal.fromRatio 96 10 })
    (3 * WEEK) 1 0 0
    { power := 96, start := 0, end_ := 10, slope := Decimal.fromRatio 96 10 }
    { power := 0, start := 0, end_ := 0, slope := Decimal.zero }
    (by decide) (by decide) (by decide) (by decide) (by decide) (by decide) (by decide)
    (by decide)
